import Mathlib

/-!
Verification of the health-policy-mapper job orchestration core.

This file shallowly embeds the domain entities and use cases of the
repository (src/domain/entities/job.py, src/domain/value_objects/column.py,
src/presentation/parsers/column_parser.py,
src/application/use_cases/aggregator.py,
src/application/use_cases/job_lifecycle.py) as executable Lean definitions
and proves, or refutes, the specification claims about them.

Conventions of the embedding:
- Python `None` / pandas `NaN` cells are `Option String` with `none`.
- Python string primitives (`lower`, `strip`, single-character `replace`,
  splitting) are re-implemented structurally over `List Char` so that all
  definitions compute by kernel reduction.  Python `str.lower` on the ASCII
  range is `Char.toLower`; non-ASCII case mapping is out of scope for the
  data this system handles (identifiers and yes/no policy markers).
-/

/- ===== Python string primitives ===== -/

/-- Characters Python's `str.strip()` and the regex class `\s` treat as
whitespace (space, tab, newline, carriage return, vertical tab, form feed). -/
def pyIsSpace (c : Char) : Bool :=
  c = ' ' || c = '\t' || c = '\n' || c = '\r' || c = '\x0b' || c = '\x0c'

/-- Python `str.strip()`: drop leading and trailing whitespace. -/
def pyStrip (s : String) : String :=
  String.mk (((s.data.dropWhile pyIsSpace).reverse.dropWhile pyIsSpace).reverse)

/-- Python `str.lower()` restricted to ASCII case mapping. -/
def pyLower (s : String) : String :=
  String.mk (s.data.map Char.toLower)

/-- Python `str.replace(pat, repl)` for a single-character pattern `pat`. -/
def pyReplaceChar (pat : Char) (repl : String) (s : String) : String :=
  String.mk (s.data.flatMap (fun c => if c = pat then repl.data else [c]))

/-- Split a character list at every occurrence of the character `c`
(Python `str.split(c)` for a one-character separator; always nonempty). -/
def splitCharAux (c : Char) : List Char → List (List Char)
  | [] => [[]]
  | ch :: rest =>
    match splitCharAux c rest with
    | [] => [[]]
    | h :: t => if ch = c then [] :: h :: t else (ch :: h) :: t

/-- Python `re.split(r",\s*", s)`: split at each comma, then strip the
whitespace run the regex consumes from the front of every piece after the
first. -/
def pyReSplitCommaWs (s : String) : List String :=
  match (splitCharAux ',' s.data).map String.mk with
  | [] => []
  | h :: t => h :: t.map (fun p => String.mk (p.data.dropWhile pyIsSpace))

/-- pandas `astype(str)` on one cell: `NaN` prints as `"nan"`. -/
def pyStrCell : Option String → String
  | none => "nan"
  | some s => s

/-- The value chain `astype(str).str.lower().str.strip()` used throughout
`aggregator.py` to normalize one cell. -/
def pyNormCell (v : Option String) : String :=
  pyStrip (pyLower (pyStrCell v))

/-- Deduplicate keeping the first occurrence of every element
(the membership content of building a Python `set`). -/
def dedupFirst : List String → List String
  | [] => []
  | x :: xs => x :: (dedupFirst xs).filter (fun y => y ≠ x)

/-- Code-point lexicographic order on character lists, as Python compares
strings. -/
def charListLe : List Char → List Char → Bool
  | [], _ => true
  | _ :: _, [] => false
  | c :: cs, d :: ds =>
    if c.val < d.val then true
    else if d.val < c.val then false
    else charListLe cs ds

/-- Python string comparison `a <= b`. -/
def strLe (a b : String) : Bool :=
  charListLe a.data b.data

/-- Insert into a `strLe`-sorted list. -/
def insertSorted (x : String) : List String → List String
  | [] => [x]
  | y :: ys => if strLe x y then x :: y :: ys else y :: insertSorted x ys

/-- Ascending insertion sort, modelling Python `sorted` on strings. -/
def sortStr (xs : List String) : List String :=
  xs.foldr insertSorted []

/-- Python `sorted(list(set(xs)))`: the distinct elements in ascending
order. -/
def sortedDedup (xs : List String) : List String :=
  sortStr (dedupFirst xs)

/-- Python `sep.join(xs)`. -/
def joinSep (sep : String) : List String → String
  | [] => ""
  | [x] => x
  | x :: y :: xs => x ++ sep ++ joinSep sep (y :: xs)

deriving instance DecidableEq for Except

/- ===== Job entity (src/domain/entities/job.py) ===== -/

/-- The `JobStatus` constants of job.py. -/
inductive JobStatus
  | pending
  | running
  | failed
  | done
  | doneWithErrors
deriving DecidableEq

/-- One checkpoint record (one row of the raw result log): the document
identifier and the `error` cell (`none` models a missing/NaN cell). -/
structure CRec where
  sourceFile : String
  error : Option String
deriving DecidableEq

/-- Error type for the `ValueError`s the Job methods raise on an illegal
transition. -/
inductive JobError
  | illegalTransition
deriving DecidableEq

/-- The Job entity.  The opaque UUID is not modelled; `result` is the raw
result log viewed through its `error` column. -/
structure Job where
  files : List String
  context : String
  status : JobStatus
  result : Option (List CRec)
  errorMessage : Option String
  totalFiles : Nat
  filesProcessed : Nat
  errorCount : Nat
deriving DecidableEq

/-- The `Job.__init__` constructor: PENDING, no result, no error message,
`total_files = len(files)`, zero counters. -/
def Job.create (files : List String) (context : String) : Job :=
  { files := files
    context := context
    status := .pending
    result := none
    errorMessage := none
    totalFiles := files.length
    filesProcessed := 0
    errorCount := 0 }

/-- `Job.start`. -/
def Job.start (j : Job) : Except JobError Job :=
  if j.status = .pending then .ok { j with status := .running }
  else .error .illegalTransition

/-- `Job.update_progress`. -/
def Job.updateProgress (j : Job) (filesProcessed : Nat) (errorCount : Option Nat) : Job :=
  { j with
    filesProcessed := filesProcessed
    errorCount := errorCount.getD j.errorCount }

/-- One conjunct of `Job._has_errors`: the error cell is non-null, not the
empty string, and not whitespace-only (`notna & (err != '') & (strip != '')`). -/
def errorCellIsError : Option String → Bool
  | none => false
  | some e => e ≠ "" && pyStrip e ≠ ""

/-- `Job._has_errors`: any row of the result has a non-null, nonblank error
cell (an absent `error` column is the all-`none` log; an empty log has no
errors). -/
def hasErrors (result : List CRec) : Bool :=
  result.any (fun r => errorCellIsError r.error)

/-- `Job.complete`. -/
def Job.complete (j : Job) (result : List CRec) : Except JobError Job :=
  if j.status = .running then
    .ok { j with
          status := if hasErrors result then .doneWithErrors else .done
          result := some result }
  else .error .illegalTransition

/-- `Job.fail`. -/
def Job.toFailed (j : Job) (message : String) : Except JobError Job :=
  if j.status = .running then
    .ok { j with status := .failed, errorMessage := some message }
  else .error .illegalTransition

/-- `Job.restart_for_retry`. -/
def Job.restartForRetry (j : Job) (newFilesProcessed : Nat) : Except JobError Job :=
  if j.status = .doneWithErrors then
    .ok { j with status := .running, filesProcessed := newFilesProcessed }
  else .error .illegalTransition

/-- The retry preparation step of
`JobLifecycle.prepare_retry_and_get_cleaned_csv` (job_lifecycle.py lines
150-151): `restart_for_retry(len(processed_files))` immediately followed by
`job.error_count = 0`. -/
def prepareRetryUpdate (j : Job) (processedCount : Nat) : Except JobError Job :=
  (j.restartForRetry processedCount).map (fun j2 => { j2 with errorCount := 0 })

/-- The Job invariants stated by the spec (section 3). -/
def JobInv (j : Job) : Prop :=
  j.filesProcessed ≤ j.totalFiles ∧
  j.errorCount ≤ j.filesProcessed ∧
  (j.result.isSome ↔ (j.status = .done ∨ j.status = .doneWithErrors)) ∧
  (j.errorMessage.isSome ↔ j.status = .failed)

instance (j : Job) : Decidable (JobInv j) := by
  unfold JobInv; infer_instance

/- ===== Claim-side statements about the Job entity ===== -/

/-- A record with a non-empty error value, read literally: the error cell is
present and not the empty string (claim C1's wording). -/
def specErrRec (r : CRec) : Bool :=
  match r.error with
  | none => false
  | some e => e ≠ ""

/-- Claim C1 as stated: from RUNNING, `complete(result)` succeeds and yields
DONE when no record has a non-empty error value and DONE_WITH_ERRORS
otherwise; from any other status it fails with an illegal-transition error. -/
def C1Claim : Prop :=
  (∀ (j : Job) (res : List CRec), j.status = .running →
      j.complete res =
        .ok { j with
              status := if res.any specErrRec then .doneWithErrors else .done
              result := some res }) ∧
  (∀ (j : Job) (res : List CRec), j.status ≠ .running →
      j.complete res = .error .illegalTransition)

/-- Claim C5 as stated: `restart_for_retry` is legal only from
DONE_WITH_ERRORS, and when legal it sets RUNNING, sets `files_processed` to
the given count and resets `error_count` to 0. -/
def C5Claim : Prop :=
  (∀ (j : Job) (n : Nat), j.status ≠ .doneWithErrors →
      j.restartForRetry n = .error .illegalTransition) ∧
  (∀ (j : Job) (n : Nat), j.status = .doneWithErrors →
      j.restartForRetry n =
        .ok { j with status := .running, filesProcessed := n, errorCount := 0 })

/-- Claim C6 as stated: every Job operation preserves the Job invariants. -/
def C6Claim : Prop :=
  (∀ (j j2 : Job), JobInv j → j.start = .ok j2 → JobInv j2) ∧
  (∀ (j : Job) (fp : Nat) (ec : Option Nat), JobInv j →
      JobInv (j.updateProgress fp ec)) ∧
  (∀ (j j2 : Job) (res : List CRec), JobInv j → j.complete res = .ok j2 → JobInv j2) ∧
  (∀ (j j2 : Job) (m : String), JobInv j → j.toFailed m = .ok j2 → JobInv j2) ∧
  (∀ (j j2 : Job) (n : Nat), JobInv j → j.restartForRetry n = .ok j2 → JobInv j2)

/- ===== Column value object (src/domain/value_objects/column.py) ===== -/

/-- The normalization chain of `Column.__post_init__`: lower-case, map the
separators space, hyphen and plus to underscores, delete quote and
parenthesis characters, expand `&` to `_and_`, and map slashes to
underscores, in the source's order. -/
def normalizeName (s : String) : String :=
  let p0 := pyLower s
  let p1 := pyReplaceChar ' ' "_" p0
  let p2 := pyReplaceChar '-' "_" p1
  let p3 := pyReplaceChar '+' "_" p2
  let p4 := pyReplaceChar '\x27' "" p3
  let p5 := pyReplaceChar '"' "" p4
  let p6 := pyReplaceChar '(' "" p5
  let p7 := pyReplaceChar ')' "" p6
  let p8 := pyReplaceChar '&' "_and_" p7
  let p9 := pyReplaceChar '/' "_" p8
  pyReplaceChar '\\' "_" p9

/-- A full match of the identifier pattern `[a-zA-Z_][a-zA-Z0-9_]*`. -/
def matchIdentCore (s : String) : Bool :=
  match s.data with
  | [] => false
  | c :: cs => (c.isAlpha || c = '_') && cs.all (fun d => d.isAlphanum || d = '_')

/-- Python `re.match(r'^[a-zA-Z_][a-zA-Z0-9_]*$', s)` as a Boolean: `$` also
matches just before a single newline at the end of the string, so a trailing
newline is tolerated. -/
def pyReMatchIdent (s : String) : Bool :=
  matchIdentCore s ||
    (s.data.getLast? = some '\n' && matchIdentCore (String.mk s.data.dropLast))

/-- Errors `Column.__post_init__` raises: `InvalidColumnNameError` for a bad
name, `ValueError` for an over-long description. -/
inductive ColumnError
  | invalidName
  | invalidDescription
deriving DecidableEq

/-- The Column value object after successful construction.  A Lean structure
is immutable, modelling the frozen dataclass. -/
structure Column where
  name : String
  description : String
deriving DecidableEq

/-- `Column.__post_init__`: normalize the name, reject it unless the
normalized name passes the `re.match` check, then bound the description at
300 characters. -/
def Column.build (name description : String) : Except ColumnError Column :=
  let processed := normalizeName name
  if pyReMatchIdent processed then
    if description.length ≤ 300 then .ok ⟨processed, description⟩
    else .error .invalidDescription
  else .error .invalidName

/-- Claim C8 as stated: the example normalization holds, construction fails
with the invalid-name error exactly when the normalized name does not match
`[a-zA-Z_][a-zA-Z0-9_]*`, and `"123abc"` is rejected. -/
def C8Claim : Prop :=
  normalizeName "Vaccination for HPV" = "vaccination_for_hpv" ∧
  (∀ n d, Column.build n d = .error .invalidName ↔ ¬ matchIdentCore (normalizeName n)) ∧
  Column.build "123abc" "" = .error .invalidName

/- ===== Column parser (src/presentation/parsers/column_parser.py) ===== -/

/-- The HTTP 400 rejections of `parse_columns_payload` (after JSON decoding,
which is not modelled: the payload arrives as a list of name/description
pairs).  `invalidItem` is the `ColumnInput` validation failure (blank name),
`invalidColumn` the Column value-object failure, both carrying the 1-based
index. -/
inductive ParseError
  | invalidItem (idx : Nat)
  | invalidColumn (idx : Nat)
  | duplicateNames (names : List String)
deriving DecidableEq

/-- The `ColumnInput` pydantic validator: the raw name must not be blank. -/
def columnInputOk (item : String × String) : Bool :=
  pyStrip item.1 ≠ ""

/-- The second loop of `parse_columns_payload`: build the domain Columns in
order, failing with the 1-based index of the first invalid one. -/
def buildColumns : Nat → List (String × String) → Except ParseError (List Column)
  | _, [] => .ok []
  | idx, item :: rest =>
    match Column.build item.1 item.2 with
    | .error _ => .error (.invalidColumn idx)
    | .ok c => (buildColumns (idx + 1) rest).map (fun cs => c :: cs)

/-- The duplicate scan of `parse_columns_payload`: the names that occur more
than once, as a sorted list (`sorted(dups)` over the accumulated set). -/
def duplicateNamesOf (names : List String) : List String :=
  sortedDedup (names.filter (fun n => 2 ≤ names.count n))

/-- `parse_columns_payload` over the decoded payload: validate every item,
build every Column, then reject duplicates after normalization. -/
def parseColumnsPayload (items : List (String × String)) : Except ParseError (List Column) :=
  match (items.enum.find? (fun p => !columnInputOk p.2)) with
  | some p => .error (.invalidItem (p.1 + 1))
  | none =>
    match buildColumns 1 items with
    | .error e => .error e
    | .ok cols =>
      let dups := duplicateNamesOf (cols.map Column.name)
      if dups = [] then .ok cols else .error (.duplicateNames dups)

/-- The job-submission boundary of `create_job` in job_controller.py:
`parse_columns_payload` runs first and any of its rejections aborts the
request before `lifecycle.create_job` constructs a Job. -/
def submitJob (items : List (String × String)) (files : List String)
    (context : String) : Except ParseError Job :=
  (parseColumnsPayload items).map (fun _cols => Job.create files context)

/-- An entry of the submitted column list that passes every per-entry
validation: nonblank raw name, normalized name accepted, description within
the bound. -/
def entryValid (item : String × String) : Prop :=
  pyStrip item.1 ≠ "" ∧
  pyReMatchIdent (normalizeName item.1) = true ∧
  item.2.length ≤ 300

instance (item : String × String) : Decidable (entryValid item) := by
  unfold entryValid; infer_instance

/- ===== Aggregator (src/application/use_cases/aggregator.py) ===== -/

/-- The fixed grouping key `self.grouping_key` set in `Aggregator.__init__`. -/
def groupingKey : String := "country_alpha_3_code"

/-- The paired display-name column of `_safe_explode_countries`. -/
def countryNameKey : String := "country"

/-- `Aggregator._get_first_value`: the first non-null value of the series,
or the empty string when every value is null. -/
def getFirstValue (s : List (Option String)) : String :=
  match s.filterMap id with
  | [] => ""
  | v :: _ => v

/-- `Aggregator._apply_yes_wins_rule`: `"Not specified"` when every value is
null; `"yes"` when some non-null value lower-cases to `"yes"`; otherwise the
first non-null value. -/
def applyYesWins (s : List (Option String)) : String :=
  match s.filterMap id with
  | [] => "Not specified"
  | v :: rest =>
    if (v :: rest).any (fun x => pyLower x = "yes") then "yes" else v

/-- `Aggregator._is_valid_justification`: nonblank, and not one of the
invalid placeholder texts after lower-casing and stripping. -/
def isValidJustification (j : String) : Bool :=
  if pyStrip j = "" then false
  else ¬ (pyStrip (pyLower j) ∈ ["not specified", "not found", "nan", "none", ""])

/-- One row of a (key, field) group as seen by the justification merge:
the raw policy-column cell, the justification text (already resolved to
`""` for a null or missing justification cell, per
`str(src_row.get(jcol, "")) if pd.notna(...) else ""`), and the stringified
source file. -/
structure JRow where
  value : Option String
  justification : String
  sourceFile : String
deriving DecidableEq

/-- The formatting tail shared by both merge branches: build
`"<source_file>: <justification>"` for rows with a valid justification,
deduplicate, sort, join with `" | "`, and fall back to the literal
`"Justification not provided"` when the text is empty. -/
def finishJust (sel : List JRow) : String :=
  let formatted := (sel.filter (fun r => isValidJustification r.justification)).map
    (fun r => r.sourceFile ++ ": " ++ r.justification)
  let text := joinSep " | " (sortedDedup formatted)
  if text = "" then "Justification not provided" else text

/-- The per-(key, field) body of `Aggregator._add_justification_columns`:
normalize the group's values; if any is `"yes"` include the rows whose
normalized value is `"yes"`; else if all are no-like include the rows whose
normalized value is `"no"` or `"not specified"`; otherwise leave the cell at
its initialized empty string. -/
def mergedJustification (rows : List JRow) : String :=
  let vals := rows.map (fun r => pyNormCell r.value)
  let anyYes := vals.any (fun v => v = "yes")
  let allNoLike :=
    vals.all (fun v => v ∈ ["no", "not specified", "", "nan"]) && !anyYes
  if anyYes then
    finishJust (rows.filter (fun r => pyNormCell r.value = "yes"))
  else if allNoLike then
    finishJust (rows.filter (fun r => pyNormCell r.value ∈ ["no", "not specified"]))
  else ""

/- ===== Aggregator claim-side statements ===== -/

/-- The name-field rule as claim C3 states it: the first value of the group
that is present and non-empty. -/
def specFirstNonEmpty (s : List (Option String)) : Option String :=
  (s.filterMap id).find? (fun v => v ≠ "")

/-- The yes-wins rule as claim C3 states it: `"yes"` if any non-null value
case-insensitively equals `"yes"`, otherwise the first non-null value, or
`"Not specified"` when the group has no non-null values. -/
def specYesWins (s : List (Option String)) : String :=
  let nonNull := s.filterMap id
  if nonNull.any (fun v => pyLower v = "yes") then "yes"
  else nonNull.headD "Not specified"

/-- Claim C3 as stated: in the per-key reduction, the name field resolves to
the first non-empty value of its group, and every other regular field
follows the yes-wins rule. -/
def C3Claim : Prop :=
  (∀ (s : List (Option String)) (v : String),
      specFirstNonEmpty s = some v → getFirstValue s = v) ∧
  (∀ s : List (Option String), applyYesWins s = specYesWins s)

/-- The justification merge as claim C4 states it: with a case-insensitive
`"yes"` anywhere in the group, only rows whose raw value is exactly `"yes"`
contribute; with an all-no-like group the `"no"` / `"not specified"` rows
contribute; otherwise no rows contribute — and the formatting tail (with its
empty-set fallback to the literal) applies to the contributing set in every
branch. -/
def specC4Just (rows : List JRow) : String :=
  let sel :=
    if rows.any (fun r => pyLower (pyStrCell r.value) = "yes") then
      rows.filter (fun r => r.value = some "yes")
    else if rows.all (fun r => pyNormCell r.value ∈ ["no", "not specified", "", "nan"]) then
      rows.filter (fun r => pyNormCell r.value ∈ ["no", "not specified"])
    else []
  finishJust sel

/-- Claim C4 as stated: the merged justification of every group is computed
by the rule above, and the worked example resolves to exactly `"b: j2"`. -/
def C4Claim : Prop :=
  (∀ rows : List JRow, mergedJustification rows = specC4Just rows) ∧
  mergedJustification
    [⟨some "no", "j1", "a"⟩, ⟨some "yes", "j2", "b"⟩, ⟨some "no", "j3", "c"⟩]
    = "b: j2"

/-- The amended merge rule: inclusion compares the lower-cased, stripped
value against `"yes"`, and an ambiguous group (neither any-yes nor
all-no-like) leaves the cell at the initialized empty string instead of the
literal. -/
def specC4Amended (rows : List JRow) : String :=
  if rows.any (fun r => pyNormCell r.value = "yes") then
    finishJust (rows.filter (fun r => pyNormCell r.value = "yes"))
  else if rows.all (fun r => pyNormCell r.value ∈ ["no", "not specified", "", "nan"]) then
    finishJust (rows.filter (fun r => pyNormCell r.value ∈ ["no", "not specified"]))
  else ""

/- ===== DataFrame model and the aggregation pipeline ===== -/

/-- A pandas DataFrame: a column list and rows aligned with it positionally.
A cell is `none` for NaN; a row index past its length also reads as NaN. -/
structure DataFrame where
  cols : List String
  rows : List (List (Option String))
deriving DecidableEq

/-- Read one cell: `none` when the column does not exist, `some cell`
otherwise. -/
def getEntry (cols : List String) (row : List (Option String)) (c : String) :
    Option (Option String) :=
  (cols.findIdx? (fun x => x = c)).bind (fun i => row.get? i)

/-- Read one cell of an existing column, NaN when absent. -/
def cellOf (cols : List String) (row : List (Option String)) (c : String) :
    Option String :=
  (getEntry cols row c).getD none

/-- Write one cell (no-op when the column does not exist). -/
def setCell (cols : List String) (row : List (Option String)) (c : String)
    (v : Option String) : List (Option String) :=
  match cols.findIdx? (fun x => x = c) with
  | some i => row.set i v
  | none => row

/-- The per-row effect of `_safe_explode_countries` once both columns are
present: split both cells on `,\s*`; when the two lists have equal length
produce one row per element pair with the stripped code and name written
back, otherwise drop the row. -/
def explodeRow (cols : List String) (row : List (Option String)) :
    List (List (Option String)) :=
  let codes := pyReSplitCommaWs (pyStrCell (cellOf cols row groupingKey))
  let names := pyReSplitCommaWs (pyStrCell (cellOf cols row countryNameKey))
  if codes.length = names.length then
    (codes.zip names).map (fun p =>
      setCell cols (setCell cols row groupingKey (some (pyStrip p.1)))
        countryNameKey (some (pyStrip p.2)))
  else []

/-- `Aggregator._safe_explode_countries`: the DataFrame is unchanged unless
both the key and the name column exist; otherwise every row is split,
length-filtered, exploded and stripped. -/
def safeExplodeCountries (df : DataFrame) : DataFrame :=
  if groupingKey ∈ df.cols ∧ countryNameKey ∈ df.cols then
    { cols := df.cols, rows := df.rows.flatMap (explodeRow df.cols) }
  else df

/-- Python `str.endswith`. -/
def strEndsWith (s suffix : String) : Bool :=
  suffix.data.isSuffixOf s.data

/-- `Aggregator._categorize_columns`, regular part: every column other than
the key that is not a `_justification` column and not `source_file` or
`error`. -/
def regularColumns (cols : List String) : List String :=
  (cols.filter (fun c => c ≠ groupingKey)).filter
    (fun c => ¬ strEndsWith c "_justification" ∧ c ≠ "source_file" ∧ c ≠ "error")

/-- The sorted distinct non-null group keys, as pandas `groupby` (with its
default sorting, dropping null keys) enumerates them. -/
def groupKeys (df : DataFrame) : List String :=
  sortedDedup (df.rows.filterMap (fun r => cellOf df.cols r groupingKey))

/-- The rows of one key group, in original order. -/
def groupRows (df : DataFrame) (k : String) : List (List (Option String)) :=
  df.rows.filter (fun r => cellOf df.cols r groupingKey = some k)

/-- `Aggregator._aggregate_regular_columns`: one output row per sorted group
key, the key first, then each regular column reduced with
`_get_first_value` for the name column and `_apply_yes_wins_rule`
otherwise. -/
def aggregateRegular (df : DataFrame) (regular : List String) : DataFrame :=
  { cols := groupingKey :: regular
    rows := (groupKeys df).map (fun k =>
      some k :: regular.map (fun c =>
        let series := (groupRows df k).map (fun r => cellOf df.cols r c)
        some (if c = countryNameKey then getFirstValue series else applyYesWins series))) }

/-- Assemble the justification-merge view of one group for one policy
column, mirroring how `_add_justification_columns` reads `original_df`:
the raw policy cell, the justification text (empty for a null or missing
cell) and the stringified source file (`"Unknown_File"` when the column is
absent). -/
def jRowsOf (df : DataFrame) (k : String) (c : String) : List JRow :=
  (groupRows df k).map (fun r =>
    { value := cellOf df.cols r c
      justification :=
        match getEntry df.cols r (c ++ "_justification") with
        | none => ""
        | some none => ""
        | some (some s) => s
      sourceFile :=
        match getEntry df.cols r "source_file" with
        | none => "Unknown_File"
        | some cell => pyStrCell cell })

/-- `Aggregator._add_justification_columns`: append one `_justification`
column per policy column (initialized and then populated per group by the
merge rule). -/
def addJustificationColumns (df : DataFrame) (result : DataFrame)
    (regular : List String) : DataFrame :=
  let policy := regular.filter (fun c => c ≠ countryNameKey)
  { cols := result.cols ++ policy.map (fun c => c ++ "_justification")
    rows := result.rows.map (fun row =>
      match cellOf result.cols row groupingKey with
      | none => row ++ policy.map (fun _ => some "")
      | some k => row ++ policy.map (fun c => some (mergedJustification (jRowsOf df k c)))) }

/-- `Aggregator._reorder_columns`: name column first when present, then the
key, then each policy column followed by its justification column. -/
def reorderColumns (result : DataFrame) (regular : List String) : DataFrame :=
  let policy := regular.filter (fun c => c ≠ countryNameKey)
  let order :=
    (if countryNameKey ∈ result.cols then [countryNameKey] else []) ++
    [groupingKey] ++
    policy.flatMap (fun c =>
      [c] ++ (if (c ++ "_justification") ∈ result.cols then [c ++ "_justification"] else []))
  let existing := order.filter (fun c => c ∈ result.cols)
  { cols := existing
    rows := result.rows.map (fun row => existing.map (fun c => cellOf result.cols row c)) }

/-- The `KeyError` of `Aggregator._validate_input`. -/
inductive AggError
  | missingGroupingKey
deriving DecidableEq

/-- `Aggregator.aggregate`: validate that the fixed grouping key exists
(raising the KeyError otherwise), then explode, reduce the regular columns,
merge justifications and reorder. -/
def aggregate (df : DataFrame) : Except AggError DataFrame :=
  if groupingKey ∈ df.cols then
    let exploded := safeExplodeCountries df
    let regular := regularColumns exploded.cols
    let result := aggregateRegular exploded regular
    let withJust := addJustificationColumns exploded result regular
    .ok (reorderColumns withJust regular)
  else .error .missingGroupingKey

/- ===== Checkpoint session (src/application/use_cases/job_lifecycle.py) ===== -/

/-- The truthiness of `record.get('error')` in `row_callback`: a present,
non-empty string. -/
def recordErrorTruthy (r : CRec) : Bool :=
  match r.error with
  | none => false
  | some e => e ≠ ""

/-- The mutable state one processing session of `_process_remaining_files`
threads through `row_callback`: the job, the on-disk raw CSV (the checkpoint
log), the `processed_sources` set loaded at session start, and the
session-local `total_processed_files` / `error_files` sets. -/
structure RunState where
  job : Job
  log : List CRec
  processedSources : List String
  totalProcessed : List String
  errorFiles : List String
deriving DecidableEq

/-- The `source_file` column of the log, as `_get_processed_files` reads it
back. -/
def logSources (log : List CRec) : List String :=
  log.map CRec.sourceFile

/-- `row_callback` (job_lifecycle.py lines 318-346): skip the record when
its source file is in `processed_sources` or was already processed this
session; otherwise append it to the raw CSV, track it (and its error, when
truthy), and push the progress counters `baseline + |session sets|` into the
job. -/
def rowCallback (baseFP baseEC : Nat) (st : RunState) (record : CRec) : RunState :=
  let src := record.sourceFile
  if src ∈ st.processedSources then st
  else if src ∈ st.totalProcessed then st
  else
    let totalProcessed := st.totalProcessed ++ [src]
    let errorFiles :=
      if recordErrorTruthy record then st.errorFiles ++ [src] else st.errorFiles
    { st with
      log := st.log ++ [record]
      totalProcessed := totalProcessed
      errorFiles := errorFiles
      job := st.job.updateProgress (baseFP + totalProcessed.length)
        (some (baseEC + errorFiles.length)) }

/-- Session initialization of `process_job` on the resume path (lines
96-101): `processed_sources` is the set of source files already in the log,
and the job's progress is set to its size; the session-local sets start
empty. -/
def initResumeSession (job : Job) (log : List CRec) : RunState :=
  let processed := dedupFirst (logSources log)
  { job := job.updateProgress processed.length none
    log := log
    processedSources := processed
    totalProcessed := []
    errorFiles := [] }

/-- Session initialization on a cold start (no existing raw CSV or no
resume flag): every set starts empty and the log is empty. -/
def initFreshSession (job : Job) : RunState :=
  { job := job, log := [], processedSources := [], totalProcessed := [], errorFiles := [] }

/-- The work-set computation of `_process_remaining_files` (line 291):
the job's files whose names are not in `processed_sources`. -/
def remainingFiles (files : List String) (processedSources : List String) :
    List String :=
  files.filter (fun f => f ∉ processedSources)

/-- The session invariant: every source file already in the log is covered
by one of the two skip sets of `row_callback`. -/
def LogCovered (st : RunState) : Prop :=
  ∀ s ∈ logSources st.log, s ∈ st.processedSources ∨ s ∈ st.totalProcessed

instance (st : RunState) : Decidable (LogCovered st) := by
  unfold LogCovered; infer_instance

/- ===== Shared list lemmas ===== -/

theorem mem_dedupFirst (a : String) (xs : List String) :
    a ∈ dedupFirst xs ↔ a ∈ xs := by
  induction xs with
  | nil => simp [dedupFirst]
  | cons x xs ih =>
    by_cases hax : a = x
    · simp [dedupFirst, hax]
    · simp [dedupFirst, hax, List.mem_filter, ih]

theorem mem_insertSorted (a x : String) (xs : List String) :
    a ∈ insertSorted x xs ↔ a = x ∨ a ∈ xs := by
  induction xs with
  | nil => simp [insertSorted]
  | cons y ys ih =>
    by_cases h : strLe x y = true
    · simp [insertSorted, h]
    · simp [insertSorted, h, ih]
      tauto

theorem mem_sortStr (a : String) (xs : List String) :
    a ∈ sortStr xs ↔ a ∈ xs := by
  induction xs with
  | nil => simp [sortStr]
  | cons x xs ih =>
    simp only [sortStr, List.foldr_cons]
    rw [mem_insertSorted]
    simp only [sortStr] at ih
    rw [ih, List.mem_cons]

theorem mem_sortedDedup (a : String) (xs : List String) :
    a ∈ sortedDedup xs ↔ a ∈ xs := by
  rw [sortedDedup, mem_sortStr, mem_dedupFirst]

/- ===== C1: complete() status derivation ===== -/

/-- C1 counterexample: the claim, read with a literally non-empty error
value, is false.  On a RUNNING job whose result log holds one record with
the whitespace-only error `" "`, `complete` derives DONE (the code strips
the error text) while the claim demands DONE_WITH_ERRORS. -/
theorem claim_C1_counterexample : ¬ C1Claim := by
  intro h
  have hinst := h.1
    { files := [], context := "", status := .running, result := none,
      errorMessage := none, totalFiles := 0, filesProcessed := 0, errorCount := 0 }
    [{ sourceFile := "f", error := some " " }] rfl
  exact absurd hinst (by decide)

/-- C1 amended: from RUNNING, `complete(result)` succeeds; it yields DONE
exactly when every present error cell is empty after trimming whitespace
and DONE_WITH_ERRORS exactly when some record's error is non-blank after
trimming; in any other status it fails with the illegal-transition error
and the job is unchanged. -/
theorem claim_C1_amended : ∀ (j : Job) (res : List CRec),
    (j.status = .running →
      (j.complete res = .ok { j with status := .done, result := some res } ↔
        ∀ r ∈ res, ∀ e, r.error = some e → pyStrip e = "") ∧
      (j.complete res = .ok { j with status := .doneWithErrors, result := some res } ↔
        ∃ r ∈ res, ∃ e, r.error = some e ∧ pyStrip e ≠ "")) ∧
    (j.status ≠ .running → j.complete res = .error .illegalTransition) := by
  intro j res
  have hcell : ∀ o : Option String,
      errorCellIsError o = true ↔ ∃ e, o = some e ∧ pyStrip e ≠ "" := by
    intro o
    cases o with
    | none => simp [errorCellIsError]
    | some e =>
      simp only [errorCellIsError, Bool.and_eq_true, decide_eq_true_eq]
      constructor
      · rintro ⟨-, h2⟩
        exact ⟨e, rfl, h2⟩
      · rintro ⟨e2, he2, h2⟩
        injection he2 with he2
        subst he2
        refine ⟨?_, h2⟩
        intro hc
        apply h2
        subst hc
        decide
  have hHas : hasErrors res = true ↔ ∃ r ∈ res, ∃ e, r.error = some e ∧ pyStrip e ≠ "" := by
    simp only [hasErrors, List.any_eq_true]
    constructor
    · rintro ⟨r, hr, he⟩
      exact ⟨r, hr, (hcell r.error).mp he⟩
    · rintro ⟨r, hr, he⟩
      exact ⟨r, hr, (hcell r.error).mpr he⟩
  refine ⟨fun hrun => ⟨?_, ?_⟩, fun hnot => ?_⟩
  · rw [Job.complete, if_pos hrun]
    constructor
    · intro hok r hr e herr
      by_contra hne
      have : hasErrors res = true := hHas.mpr ⟨r, hr, e, herr, hne⟩
      simp [this] at hok
    · intro hall
      have hf : hasErrors res = false := by
        cases hb : hasErrors res
        · rfl
        · obtain ⟨r, hr, e, herr, hne⟩ := hHas.mp hb
          exact absurd (hall r hr e herr) hne
      simp [hf]
  · rw [Job.complete, if_pos hrun]
    constructor
    · intro hok
      cases hb : hasErrors res
      · simp [hb] at hok
      · exact hHas.mp hb
    · intro hex
      simp [hHas.mpr hex]
  · rw [Job.complete, if_neg hnot]

/-- Witness for the C1 amended theorem at a concrete RUNNING job: a log
with a whitespace-only error completes to DONE. -/
theorem claim_C1_witness :
    Job.complete
      { files := [], context := "", status := .running, result := none,
        errorMessage := none, totalFiles := 0, filesProcessed := 0, errorCount := 0 }
      [{ sourceFile := "f", error := some " " }] =
    .ok { files := [], context := "", status := .done,
          result := some [{ sourceFile := "f", error := some " " }],
          errorMessage := none, totalFiles := 0, filesProcessed := 0, errorCount := 0 } :=
  ((claim_C1_amended _ _).1 rfl).1.mpr (by decide)

/- ===== C5: restart_for_retry ===== -/

/-- C5 counterexample: `Job.restart_for_retry` does not reset
`error_count`.  On a DONE_WITH_ERRORS job with `error_count = 2`, restarting
yields a RUNNING job still carrying `error_count = 2`, not 0 as the claim
states. -/
theorem claim_C5_counterexample : ¬ C5Claim := by
  intro h
  have hinst := h.2
    { files := [], context := "", status := .doneWithErrors, result := some [],
      errorMessage := none, totalFiles := 3, filesProcessed := 3, errorCount := 2 }
    7 rfl
  exact absurd hinst (by decide)

/-- C5 amended: `restart_for_retry` is legal only from DONE_WITH_ERRORS and
fails with the illegal-transition error in every other status; when legal it
sets RUNNING and `files_processed := processed_count` but leaves
`error_count` unchanged — the retry-preparation step of the job lifecycle
performs the reset to 0 immediately afterwards. -/
theorem claim_C5_amended : ∀ (j : Job) (n : Nat),
    (j.status ≠ .doneWithErrors →
      j.restartForRetry n = .error .illegalTransition) ∧
    (j.status = .doneWithErrors →
      j.restartForRetry n = .ok { j with status := .running, filesProcessed := n } ∧
      prepareRetryUpdate j n =
        .ok { j with status := .running, filesProcessed := n, errorCount := 0 }) := by
  intro j n
  constructor
  · intro hne
    rw [Job.restartForRetry, if_neg hne]
  · intro heq
    rw [prepareRetryUpdate, Job.restartForRetry, if_pos heq]
    exact ⟨rfl, rfl⟩

/-- Witness for the C5 amended theorem at a concrete DONE_WITH_ERRORS job
with two recorded errors. -/
theorem claim_C5_witness :
    Job.restartForRetry
      { files := [], context := "", status := .doneWithErrors, result := some [],
        errorMessage := none, totalFiles := 3, filesProcessed := 3, errorCount := 2 } 1 =
      .ok { files := [], context := "", status := .running, result := some [],
            errorMessage := none, totalFiles := 3, filesProcessed := 1, errorCount := 2 } ∧
    prepareRetryUpdate
      { files := [], context := "", status := .doneWithErrors, result := some [],
        errorMessage := none, totalFiles := 3, filesProcessed := 3, errorCount := 2 } 1 =
      .ok { files := [], context := "", status := .running, result := some [],
            errorMessage := none, totalFiles := 3, filesProcessed := 1, errorCount := 0 } :=
  (claim_C5_amended _ 1).2 rfl

/- ===== C6: invariant preservation ===== -/

/-- C6 counterexample: `update_progress` accepts any counts, so it can push
`files_processed` past `total_files`; a freshly created empty job updated to
5 processed files violates the invariants. -/
theorem claim_C6_counterexample : ¬ C6Claim := by
  intro h
  have hinst := h.2.1 (Job.create [] "c") 5 none (by decide)
  exact absurd hinst (by decide)

/-- C6 amended: `start`, `complete` and `fail` preserve the Job invariants
unconditionally; `update_progress` preserves them exactly when the supplied
counts themselves respect `files_processed ≤ total_files` and
`error_count ≤ files_processed`; `restart_for_retry` never preserves them
from an invariant-satisfying DONE_WITH_ERRORS job — it produces a RUNNING
job whose `result` is still set. -/
theorem claim_C6_amended :
    (∀ (j j2 : Job), JobInv j → j.start = .ok j2 → JobInv j2) ∧
    (∀ (j j2 : Job) (res : List CRec), JobInv j → j.complete res = .ok j2 → JobInv j2) ∧
    (∀ (j j2 : Job) (m : String), JobInv j → j.toFailed m = .ok j2 → JobInv j2) ∧
    (∀ (j : Job) (fp : Nat) (ec : Option Nat), JobInv j →
      fp ≤ j.totalFiles → ec.getD j.errorCount ≤ fp →
      JobInv (j.updateProgress fp ec)) ∧
    (∀ (j j2 : Job) (n : Nat), JobInv j → j.restartForRetry n = .ok j2 →
      j2.status = .running ∧ j2.result.isSome ∧ ¬ JobInv j2) := by
  refine ⟨?_, ?_, ?_, ?_, ?_⟩
  · intro j j2 hinv h
    rw [Job.start] at h
    split at h
    case isTrue hc =>
      injection h with h
      subst h
      obtain ⟨h1, h2, h3, h4⟩ := hinv
      rw [hc] at h3 h4
      refine ⟨h1, h2, ?_, ?_⟩ <;> simp_all
    case isFalse => exact absurd h (by simp)
  · intro j j2 res hinv h
    rw [Job.complete] at h
    split at h
    case isTrue hc =>
      injection h with h
      subst h
      obtain ⟨h1, h2, h3, h4⟩ := hinv
      rw [hc] at h3 h4
      cases hb : hasErrors res <;>
        refine ⟨h1, h2, ?_, ?_⟩ <;> simp_all
    case isFalse => exact absurd h (by simp)
  · intro j j2 m hinv h
    rw [Job.toFailed] at h
    split at h
    case isTrue hc =>
      injection h with h
      subst h
      obtain ⟨h1, h2, h3, h4⟩ := hinv
      rw [hc] at h3 h4
      refine ⟨h1, h2, ?_, ?_⟩ <;> simp_all
    case isFalse => exact absurd h (by simp)
  · intro j fp ec hinv hfp hec
    obtain ⟨h1, h2, h3, h4⟩ := hinv
    exact ⟨hfp, hec, h3, h4⟩
  · intro j j2 n hinv h
    rw [Job.restartForRetry] at h
    split at h
    case isTrue hc =>
      injection h with h
      subst h
      obtain ⟨h1, h2, h3, h4⟩ := hinv
      rw [hc] at h3 h4
      have hres : j.result.isSome := by simp_all
      refine ⟨rfl, hres, ?_⟩
      rintro ⟨-, -, h3n, -⟩
      simp_all
    case isFalse => exact absurd h (by simp)

/-- Witness for the C6 amended theorem: one concrete instantiation per
conjunct. -/
theorem claim_C6_witness :
    JobInv { files := ["a"], context := "c", status := .running, result := none,
             errorMessage := none, totalFiles := 1, filesProcessed := 0, errorCount := 0 } ∧
    JobInv { files := ["a"], context := "c", status := .done,
             result := some [{ sourceFile := "a", error := none }],
             errorMessage := none, totalFiles := 1, filesProcessed := 1, errorCount := 0 } ∧
    JobInv { files := ["a"], context := "c", status := .failed, result := none,
             errorMessage := some "boom", totalFiles := 1, filesProcessed := 0,
             errorCount := 0 } ∧
    JobInv (Job.updateProgress
      { files := ["a", "b"], context := "c", status := .running, result := none,
        errorMessage := none, totalFiles := 2, filesProcessed := 0, errorCount := 0 }
      2 (some 1)) ∧
    ¬ JobInv { files := ["a"], context := "c", status := .running,
               result := some [{ sourceFile := "a", error := some "e" }],
               errorMessage := none, totalFiles := 1, filesProcessed := 0,
               errorCount := 1 } := by
  refine ⟨?_, ?_, ?_, ?_, ?_⟩
  · exact claim_C6_amended.1
      { files := ["a"], context := "c", status := .pending, result := none,
        errorMessage := none, totalFiles := 1, filesProcessed := 0, errorCount := 0 }
      _ (by decide) (by decide)
  · exact claim_C6_amended.2.1
      { files := ["a"], context := "c", status := .running, result := none,
        errorMessage := none, totalFiles := 1, filesProcessed := 1, errorCount := 0 }
      _ [{ sourceFile := "a", error := none }] (by decide) (by decide)
  · exact claim_C6_amended.2.2.1
      { files := ["a"], context := "c", status := .running, result := none,
        errorMessage := none, totalFiles := 1, filesProcessed := 0, errorCount := 0 }
      _ "boom" (by decide) (by decide)
  · exact claim_C6_amended.2.2.2.1
      { files := ["a", "b"], context := "c", status := .running, result := none,
        errorMessage := none, totalFiles := 2, filesProcessed := 0, errorCount := 0 }
      2 (some 1) (by decide) (by decide) (by decide)
  · exact (claim_C6_amended.2.2.2.2
      { files := ["a"], context := "c", status := .doneWithErrors,
        result := some [{ sourceFile := "a", error := some "e" }],
        errorMessage := none, totalFiles := 1, filesProcessed := 1, errorCount := 1 }
      _ 0 (by decide) (by decide)).2.2

/- ===== C2: checkpoint log uniqueness / idempotent append ===== -/

/-- C2: within a session whose skip sets cover the log (which holds at
session start on a cold start, on resume and on retry), `row_callback` is a
no-op for any record whose source file is already logged — whether from a
prior run (`processed_sources`) or from the current run
(`total_processed_files`) — coverage is preserved by every callback, so the
log never acquires a duplicate `source_file`; and the resume work set
excludes every already-logged file. -/
theorem claim_C2 :
    (∀ (baseFP baseEC : Nat) (st : RunState) (r : CRec), LogCovered st →
      r.sourceFile ∈ logSources st.log → rowCallback baseFP baseEC st r = st) ∧
    (∀ (baseFP baseEC : Nat) (st : RunState) (r : CRec), LogCovered st →
      LogCovered (rowCallback baseFP baseEC st r)) ∧
    (∀ (baseFP baseEC : Nat) (st : RunState) (r : CRec), LogCovered st →
      (logSources st.log).Nodup →
      (logSources (rowCallback baseFP baseEC st r).log).Nodup) ∧
    (∀ (job : Job) (log : List CRec), LogCovered (initResumeSession job log)) ∧
    (∀ (job : Job), LogCovered (initFreshSession job)) ∧
    (∀ (job : Job) (log : List CRec) (f : String),
      f ∈ remainingFiles job.files (initResumeSession job log).processedSources →
      f ∉ logSources log) := by
  refine ⟨?_, ?_, ?_, ?_, ?_, ?_⟩
  · intro baseFP baseEC st r hcov hmem
    rcases hcov r.sourceFile hmem with hp | ht
    · rw [rowCallback, if_pos hp]
    · by_cases hp2 : r.sourceFile ∈ st.processedSources
      · rw [rowCallback, if_pos hp2]
      · rw [rowCallback, if_neg hp2, if_pos ht]
  · intro baseFP baseEC st r hcov
    rw [rowCallback]
    split
    · exact hcov
    · split
      · exact hcov
      · intro s hs
        simp only [logSources, List.map_append, List.map_cons, List.map_nil,
          List.mem_append, List.mem_cons, List.not_mem_nil, or_false] at hs
        rcases hs with hs | hs
        · rcases hcov s hs with hp | ht
          · exact Or.inl hp
          · exact Or.inr (List.mem_append_left _ ht)
        · subst hs
          exact Or.inr (List.mem_append_right _ (List.mem_singleton_self _))
  · intro baseFP baseEC st r hcov hnd
    rw [rowCallback]
    split
    · exact hnd
    case isFalse hp =>
      split
      · exact hnd
      case isFalse ht =>
        have hnotin : r.sourceFile ∉ logSources st.log := by
          intro hmem
          rcases hcov _ hmem with h | h
          · exact hp h
          · exact ht h
        simp only [logSources, List.map_append, List.map_cons, List.map_nil]
        rw [List.nodup_append]
        exact ⟨hnd, List.nodup_singleton _, by
          intro a ha hb
          simp only [List.mem_cons, List.not_mem_nil, or_false] at hb
          subst hb
          exact hnotin ha⟩
  · intro job log s hs
    exact Or.inl ((mem_dedupFirst s _).mpr hs)
  · intro job s hs
    simp [initFreshSession, logSources] at hs
  · intro job log f hf
    simp only [remainingFiles, initResumeSession, List.mem_filter,
      decide_eq_true_eq] at hf
    intro hmem
    exact hf.2 ((mem_dedupFirst f _).mpr hmem)

/-- Witness for the C2 theorem at a concrete resumed session: the callback
for an already-logged file changes nothing, and the work set omits it. -/
theorem claim_C2_witness :
    rowCallback 1 0
      { job := Job.create ["a", "b"] "c"
        log := [{ sourceFile := "a", error := none }]
        processedSources := ["a"]
        totalProcessed := []
        errorFiles := [] }
      { sourceFile := "a", error := none } =
      { job := Job.create ["a", "b"] "c"
        log := [{ sourceFile := "a", error := none }]
        processedSources := ["a"]
        totalProcessed := []
        errorFiles := [] } ∧
    LogCovered (initResumeSession (Job.create ["a", "b"] "c")
      [{ sourceFile := "a", error := none }]) ∧
    ("b" ∉ logSources [{ sourceFile := "a", error := (none : Option String) }]) := by
  refine ⟨?_, ?_, ?_⟩
  · exact claim_C2.1 1 0 _ _ (by decide) (by decide)
  · exact claim_C2.2.2.2.1 (Job.create ["a", "b"] "c") _
  · exact claim_C2.2.2.2.2.2 (Job.create ["a", "b"] "c")
      [{ sourceFile := "a", error := none }] "b" (by decide)

/- ===== C3: regular-field reduction ===== -/

/-- C3 counterexample: the designated name field is reduced with
`_get_first_value`, which takes the first non-NULL value, not the first
non-empty one.  For the group `["", "Austria"]` the claim's rule resolves to
`"Austria"` while the code resolves to `""`. -/
theorem claim_C3_counterexample : ¬ C3Claim := by
  intro h
  have hinst := h.1 [some "", some "Austria"] "Austria" (by decide)
  exact absurd hinst (by decide)

/-- C3 amended: the name field resolves to the first non-null value of its
group (or the empty string when every value is null); every other regular
field follows the yes-wins rule exactly as the claim states it. -/
theorem claim_C3_amended :
    (∀ s : List (Option String), getFirstValue s = (s.filterMap id).headD "") ∧
    (∀ s : List (Option String), applyYesWins s = specYesWins s) := by
  constructor
  · intro s
    rw [getFirstValue]
    cases h : s.filterMap id <;> simp [h]
  · intro s
    rw [applyYesWins, specYesWins]
    cases h : s.filterMap id with
    | nil => simp
    | cons v rest => simp

/- ===== C4: justification merge ===== -/

/-- C4 counterexample: the claim's rule is false.  For the one-row group
with raw value `"YES"`, the code includes the row (it compares the
lower-cased, stripped value) and merges `"a: j"`, while the claim's
raw-value test includes nothing and falls back to the literal. -/
theorem claim_C4_counterexample : ¬ C4Claim := by
  intro h
  have hinst := h.1 [{ value := some "YES", justification := "j", sourceFile := "a" }]
  exact absurd hinst (by decide)

/-- C4 amended: the merge selects rows by the lower-cased, stripped value
(`"yes"` in the any-yes branch), keeps the no-like branch as claimed, and in
the ambiguous branch leaves the cell at the initialized empty string rather
than the literal; the formatting tail and the worked example
(`values ["no","yes","no"]` yielding exactly `"b: j2"`) are as claimed. -/
theorem claim_C4_amended :
    (∀ rows : List JRow, mergedJustification rows = specC4Amended rows) ∧
    mergedJustification
      [{ value := some "no", justification := "j1", sourceFile := "a" },
       { value := some "yes", justification := "j2", sourceFile := "b" },
       { value := some "no", justification := "j3", sourceFile := "c" }] = "b: j2" := by
  constructor
  · intro rows
    have hmap : ∀ p : String → Bool,
        ((rows.map (fun r => pyNormCell r.value)).any p) =
          rows.any (fun r => p (pyNormCell r.value)) := by
      intro p
      induction rows with
      | nil => rfl
      | cons a l ih => simp [ih]
    have hmapAll : ∀ p : String → Bool,
        ((rows.map (fun r => pyNormCell r.value)).all p) =
          rows.all (fun r => p (pyNormCell r.value)) := by
      clear hmap
      intro p
      induction rows with
      | nil => rfl
      | cons a l ih => simp [ih]
    simp only [mergedJustification, specC4Amended, hmap, hmapAll]
    cases hy : rows.any (fun r => decide (pyNormCell r.value = "yes")) <;> simp [hy]
  · decide

/- ===== C7: row explosion ===== -/

set_option maxHeartbeats 1600000 in
/-- C7: a row whose key and name cells split into comma-separated lists of
different lengths is dropped entirely; equal-length lists yield one exploded
row per element pair; with both columns present the whole DataFrame maps row
by row through this expansion; and both worked examples hold. -/
theorem claim_C7 :
    (∀ (cols : List String) (row : List (Option String)),
      (pyReSplitCommaWs (pyStrCell (cellOf cols row groupingKey))).length ≠
        (pyReSplitCommaWs (pyStrCell (cellOf cols row countryNameKey))).length →
      explodeRow cols row = []) ∧
    (∀ (cols : List String) (row : List (Option String)),
      (pyReSplitCommaWs (pyStrCell (cellOf cols row groupingKey))).length =
        (pyReSplitCommaWs (pyStrCell (cellOf cols row countryNameKey))).length →
      (explodeRow cols row).length =
        (pyReSplitCommaWs (pyStrCell (cellOf cols row groupingKey))).length) ∧
    (∀ df : DataFrame, groupingKey ∈ df.cols → countryNameKey ∈ df.cols →
      safeExplodeCountries df =
        { cols := df.cols, rows := df.rows.flatMap (explodeRow df.cols) }) ∧
    safeExplodeCountries
      { cols := ["country_alpha_3_code", "country", "p"],
        rows := [[some "AUT, DEU", some "Austria, Germany", some "yes"]] } =
      { cols := ["country_alpha_3_code", "country", "p"],
        rows := [[some "AUT", some "Austria", some "yes"],
                 [some "DEU", some "Germany", some "yes"]] } ∧
    safeExplodeCountries
      { cols := ["country_alpha_3_code", "country", "p"],
        rows := [[some "AUT, DEU", some "Austria", some "yes"]] } =
      { cols := ["country_alpha_3_code", "country", "p"], rows := [] } := by
  refine ⟨?_, ?_, ?_, by decide, by decide⟩
  · intro cols row hne
    rw [explodeRow, if_neg hne]
  · intro cols row heq
    rw [explodeRow, if_pos heq]
    rw [List.length_map, List.length_zip, heq, Nat.min_self]
  · intro df h1 h2
    rw [safeExplodeCountries, if_pos ⟨h1, h2⟩]

set_option maxHeartbeats 1600000 in
/-- Witness for the C7 theorem at concrete rows: the mismatched row expands
to nothing, the matched row to two rows, and the example DataFrame takes the
flatMap form. -/
theorem claim_C7_witness :
    explodeRow ["country_alpha_3_code", "country", "p"]
      [some "AUT, DEU", some "Austria", some "yes"] = [] ∧
    (explodeRow ["country_alpha_3_code", "country", "p"]
      [some "AUT, DEU", some "Austria, Germany", some "yes"]).length = 2 ∧
    safeExplodeCountries
      { cols := ["country_alpha_3_code", "country", "p"],
        rows := [[some "AUT, DEU", some "Austria, Germany", some "yes"]] } =
      { cols := ["country_alpha_3_code", "country", "p"],
        rows := [[some "AUT, DEU", some "Austria, Germany", some "yes"]].flatMap
          (explodeRow ["country_alpha_3_code", "country", "p"]) } := by
  refine ⟨?_, ?_, ?_⟩
  · exact claim_C7.1 _ _ (by decide)
  · exact claim_C7.2.1 _ _ (by decide)
  · exact claim_C7.2.2.1 _ (by decide) (by decide)

/- ===== C8: field-name normalization ===== -/

/-- C8 counterexample: the claim's "exactly when the normalized name does
not match the identifier pattern" is false, because Python's `re.match` with
a `$` anchor also accepts a single trailing newline.  The name `"abc\n"`
does not match the pattern yet construction succeeds. -/
theorem claim_C8_counterexample : ¬ C8Claim := by
  intro h
  have hinst := (h.2.1 "abc\n" "").mpr (by decide)
  exact absurd hinst (by decide)

/-- C8 amended: the example normalization holds, `"123abc"` is rejected,
the name stored by a successful construction is the normalized input, and
construction fails with the invalid-name error exactly when the normalized
name fails Python's anchored `re.match` — the identifier pattern, or the
identifier pattern followed by one trailing newline. -/
theorem claim_C8_amended :
    normalizeName "Vaccination for HPV" = "vaccination_for_hpv" ∧
    Column.build "123abc" "" = .error .invalidName ∧
    (∀ n d, Column.build n d = .error .invalidName ↔
      ¬ pyReMatchIdent (normalizeName n) = true) ∧
    (∀ n d c, Column.build n d = .ok c → c.name = normalizeName n) := by
  refine ⟨by decide, by decide, ?_, ?_⟩
  · intro n d
    rw [Column.build]
    cases hm : pyReMatchIdent (normalizeName n)
    · simp [hm]
    · by_cases hd : d.length ≤ 300 <;> simp [hm, hd]
  · intro n d c h
    rw [Column.build] at h
    cases hm : pyReMatchIdent (normalizeName n)
    · rw [hm] at h
      simp at h
    · rw [hm] at h
      by_cases hd : d.length ≤ 300
      · rw [if_pos rfl, if_pos hd] at h
        simp only [Except.ok.injEq] at h
        rw [← h]
      · rw [if_pos rfl, if_neg hd] at h
        exact absurd h (by simp)

/-- Witness for the C8 amended theorem: the claim's own example input,
applied through the construction equivalences. -/
theorem claim_C8_witness :
    Column.build "Vaccination for HPV" "d" ≠ .error .invalidName ∧
    Column.name { name := "vaccination_for_hpv", description := "d" } =
      normalizeName "Vaccination for HPV" := by
  constructor
  · intro hc
    exact absurd ((claim_C8_amended.2.2.1 "Vaccination for HPV" "d").mp hc) (by decide)
  · exact claim_C8_amended.2.2.2 "Vaccination for HPV" "d" _ (by decide)

/- ===== C9: duplicate column names at submission ===== -/

theorem enum_snd_mem {α : Type} :
    ∀ (l : List α) (i : Nat) (p : Nat × α), p ∈ List.enumFrom i l → p.2 ∈ l := by
  intro l
  induction l with
  | nil => intro i p hp; simp [List.enumFrom] at hp
  | cons a t ih =>
    intro i p hp
    rw [List.enumFrom, List.mem_cons] at hp
    rcases hp with hp | hp
    · subst hp
      exact List.mem_cons_self a t
    · exact List.mem_cons_of_mem a (ih (i + 1) p hp)

theorem buildColumns_ok :
    ∀ (items : List (String × String)), (∀ item ∈ items, entryValid item) →
    ∀ (idx : Nat),
      buildColumns idx items =
        .ok (items.map (fun p => { name := normalizeName p.1, description := p.2 })) := by
  intro items
  induction items with
  | nil => intro h idx; rfl
  | cons a l ih =>
    intro h idx
    have ha := h a (List.mem_cons_self a l)
    have hb : Column.build a.1 a.2 = .ok { name := normalizeName a.1, description := a.2 } := by
      rw [Column.build, if_pos ha.2.1, if_pos ha.2.2]
    simp only [buildColumns]
    rw [hb]
    rw [ih (fun x hx => h x (List.mem_cons_of_mem a hx)) (idx + 1)]
    rfl

theorem parse_duplicate_of (items : List (String × String)) (cols : List Column)
    (hfind : items.enum.find? (fun p => !columnInputOk p.2) = none)
    (hbuild : buildColumns 1 items = .ok cols)
    (hne : duplicateNamesOf (cols.map Column.name) ≠ []) :
    parseColumnsPayload items =
      .error (.duplicateNames (duplicateNamesOf (cols.map Column.name))) := by
  unfold parseColumnsPayload
  rw [hfind, hbuild]
  show (if duplicateNamesOf (cols.map Column.name) = [] then Except.ok cols
        else Except.error (ParseError.duplicateNames (duplicateNamesOf (cols.map Column.name)))) =
      Except.error (ParseError.duplicateNames (duplicateNamesOf (cols.map Column.name)))
  rw [if_neg hne]

/-- C9: when every entry of the submitted column list is individually valid
but two of them normalize to the same identifier (the normalized name occurs
at least twice), the submission boundary rejects the request with a
duplicate-column-names error containing that name, and no Job value is
produced. -/
theorem claim_C9 : ∀ (items : List (String × String)) (files : List String)
    (context nm : String),
    (∀ item ∈ items, entryValid item) →
    2 ≤ ((items.map (fun p => normalizeName p.1)).count nm) →
    nm ∈ duplicateNamesOf (items.map (fun p => normalizeName p.1)) ∧
    submitJob items files context =
      .error (.duplicateNames (duplicateNamesOf (items.map (fun p => normalizeName p.1)))) := by
  intro items files context nm hvalid hcount
  have hfind : items.enum.find? (fun p => !columnInputOk p.2) = none := by
    rw [List.find?_eq_none]
    intro x hx
    have hmem : x.2 ∈ items := enum_snd_mem items 0 x hx
    have hv := (hvalid x.2 hmem).1
    simp [columnInputOk, hv]
  have hbuild := buildColumns_ok items hvalid 1
  have hnames :
      (items.map (fun p =>
        ({ name := normalizeName p.1, description := p.2 } : Column))).map Column.name =
      items.map (fun p => normalizeName p.1) := by
    rw [List.map_map]
    rfl
  have hmemdup : nm ∈ duplicateNamesOf (items.map (fun p => normalizeName p.1)) := by
    rw [duplicateNamesOf, mem_sortedDedup, List.mem_filter]
    refine ⟨?_, ?_⟩
    · exact List.count_pos_iff.mp (lt_of_lt_of_le (by norm_num) hcount)
    · simpa using hcount
  have hne : duplicateNamesOf (items.map (fun p => normalizeName p.1)) ≠ [] := by
    intro hemp
    rw [hemp] at hmemdup
    simp at hmemdup
  have hne2 : duplicateNamesOf ((items.map (fun p =>
      ({ name := normalizeName p.1, description := p.2 } : Column))).map Column.name) ≠ [] := by
    rw [hnames]
    exact hne
  have hpar := parse_duplicate_of items _ hfind hbuild hne2
  rw [hnames] at hpar
  refine ⟨hmemdup, ?_⟩
  rw [submitJob, hpar]
  rfl

/-- Witness for the C9 theorem at the claim's example payload: the two
names both normalize to `vaccination_for_hpv` and the submission is
rejected. -/
theorem claim_C9_witness :
    "vaccination_for_hpv" ∈ duplicateNamesOf
      ([("Vaccination for HPV", ""), ("vaccination-for-hpv", "")].map
        (fun p => normalizeName p.1)) ∧
    submitJob [("Vaccination for HPV", ""), ("vaccination-for-hpv", "")] ["f.pdf"] "ctx" =
      .error (.duplicateNames (duplicateNamesOf
        ([("Vaccination for HPV", ""), ("vaccination-for-hpv", "")].map
          (fun p => normalizeName p.1)))) :=
  claim_C9 [("Vaccination for HPV", ""), ("vaccination-for-hpv", "")] ["f.pdf"] "ctx"
    "vaccination_for_hpv" (by decide) (by decide)

/- ===== C10: fixed grouping key ===== -/

/-- C10: the grouping key is the fixed literal `country_alpha_3_code` — the
`aggregate` operation takes no key parameter — and aggregation fails with
the KeyError, producing no output, exactly when the input lacks that
column. -/
theorem claim_C10 :
    groupingKey = "country_alpha_3_code" ∧
    ∀ df : DataFrame,
      (aggregate df = .error .missingGroupingKey ↔ groupingKey ∉ df.cols) := by
  refine ⟨rfl, ?_⟩
  intro df
  rw [aggregate]
  by_cases h : groupingKey ∈ df.cols
  · simp [h]
  · simp [h]
